import Mathlib

/-!
Verification of the encrypted, versioned note-blob storage engine of the
TheHaydenSphere backend (src/node.js), via a shallow embedding in Lean 4.

Byte strings (node Buffers and JS strings) are modelled as `List Nat`
with each entry `< 256` where it matters.  External library primitives
(node crypto AES-256-GCM, PBKDF2, scrypt, SHA-256, zlib gzip, bcrypt)
are not part of the repository source; each is modelled structurally,
faithful to its documented contract, and marked as modelled in its doc
comment.  All handler logic (route bodies, branching, persistence
order) is translated directly from src/node.js.
-/

namespace Hayden

/-- Byte strings: node Buffers / JS strings as code-unit lists. -/
abbrev Bytes := List Nat

/-- Base64 encoding of a byte list, represented as the list of 6-bit
sextet values of the base64 text (the fixed sextet-to-ASCII alphabet
table is a bijection and is elided).  Standard grouping of 3 bytes into
4 sextets, with truncated final groups. -/
def b64encode : Bytes → List Nat
  | [] => []
  | [b0] => [b0 / 4, b0 % 4 * 16]
  | [b0, b1] => [b0 / 4, b0 % 4 * 16 + b1 / 16, b1 % 16 * 4]
  | b0 :: b1 :: b2 :: rest =>
      b0 / 4 :: (b0 % 4 * 16 + b1 / 16) :: (b1 % 16 * 4 + b2 / 64) :: b2 % 64 ::
        b64encode rest

/-- Base64 decoding (sextet list back to bytes), the inverse of
`b64encode` on well-formed input. -/
def b64decode : List Nat → Bytes
  | [c0, c1] => [c0 * 4 + c1 / 16]
  | [c0, c1, c2] => [c0 * 4 + c1 / 16, c1 % 16 * 16 + c2 / 4]
  | c0 :: c1 :: c2 :: c3 :: rest =>
      (c0 * 4 + c1 / 16) :: (c1 % 16 * 16 + c2 / 4) :: (c2 % 4 * 64 + c3) ::
        b64decode rest
  | _ => []

theorem b64_roundtrip (l : Bytes) (h : ∀ b ∈ l, b < 256) :
    b64decode (b64encode l) = l := by
  induction l using b64encode.induct with
  | case1 => rfl
  | case2 b0 =>
      have hb0 : b0 < 256 := h b0 (by simp)
      simp only [b64encode, b64decode, List.cons.injEq, and_true]
      omega
  | case3 b0 b1 =>
      have hb0 : b0 < 256 := h b0 (by simp)
      have hb1 : b1 < 256 := h b1 (by simp)
      simp only [b64encode, b64decode, List.cons.injEq, and_true]
      omega
  | case4 b0 b1 b2 rest ih =>
      have hb0 : b0 < 256 := h b0 (by simp)
      have hb1 : b1 < 256 := h b1 (by simp)
      have hb2 : b2 < 256 := h b2 (by simp)
      have ih2 := ih (fun b hb => h b (by simp [hb]))
      simp only [b64encode, b64decode, ih2, List.cons.injEq, and_true]
      omega

/-- Modelled from the spec: the AES-256-GCM core of node `crypto`
(library code, not in src/).  GCM runs the block cipher in counter
mode, so the ciphertext is the plaintext XORed byte-wise with a
keystream determined by key and nonce; a 16-byte authentication tag is
computed from key, nonce and ciphertext.  `ksByte` is an executable
structural stand-in for the keystream with the right shape (one byte
per position, `< 256`, depending on key, nonce and position). -/
def ksByte (key iv : Bytes) (i : Nat) : Nat :=
  (key.sum * 13 + iv.sum * 7 + i * 5 + 11) % 256

/-- Counter-mode byte stream starting at counter position `i`. -/
def xorStreamFrom (key iv : Bytes) (i : Nat) : Bytes → Bytes
  | [] => []
  | b :: rest => (b ^^^ ksByte key iv i) :: xorStreamFrom key iv (i + 1) rest

/-- XOR the data with the keystream (both encryption and decryption). -/
def xorStream (key iv : Bytes) (data : Bytes) : Bytes := xorStreamFrom key iv 0 data

/-- Modelled from the spec: the 16-byte GCM authentication tag over the
ciphertext (node `crypto` library code, not in src/); an executable
structural stand-in depending on key, nonce and ciphertext. -/
def gcmTag (key iv body : Bytes) : Bytes :=
  (List.range 16).map
    (fun i => (key.sum * 5 + iv.sum * 3 + body.sum * 11 + body.length * 9 + i) % 256)

theorem xorStreamFrom_involutive (key iv : Bytes) :
    ∀ (i : Nat) (l : Bytes), xorStreamFrom key iv i (xorStreamFrom key iv i l) = l := by
  intro i l
  induction l generalizing i with
  | nil => rfl
  | cons b rest ih =>
      simp only [xorStreamFrom, List.cons.injEq]
      exact ⟨Nat.xor_cancel_right _ _, ih (i + 1)⟩

theorem xorStreamFrom_length (key iv : Bytes) :
    ∀ (i : Nat) (l : Bytes), (xorStreamFrom key iv i l).length = l.length := by
  intro i l
  induction l generalizing i with
  | nil => rfl
  | cons b rest ih => simp [xorStreamFrom, ih]

theorem xorStreamFrom_lt (key iv : Bytes) :
    ∀ (i : Nat) (l : Bytes), (∀ b ∈ l, b < 256) →
      ∀ b ∈ xorStreamFrom key iv i l, b < 256 := by
  intro i l
  induction l generalizing i with
  | nil => intro _ b hb; simp [xorStreamFrom] at hb
  | cons c rest ih =>
      intro h b hb
      simp only [xorStreamFrom, List.mem_cons] at hb
      rcases hb with hb | hb
      · subst hb
        have hc : c < 256 := h c (by simp)
        have hk : ksByte key iv i < 256 := Nat.mod_lt _ (by omega)
        have h8 : (2 : Nat) ^ 8 = 256 := by norm_num
        have : c ^^^ ksByte key iv i < 2 ^ 8 :=
          Nat.xor_lt_two_pow (by omega) (by omega)
        omega
      · exact ih (i + 1) (fun d hd => h d (by simp [hd])) b hb

theorem gcmTag_length (key iv body : Bytes) : (gcmTag key iv body).length = 16 := by
  simp [gcmTag]

theorem gcmTag_lt (key iv body : Bytes) : ∀ b ∈ gcmTag key iv body, b < 256 := by
  intro b hb
  simp only [gcmTag, List.mem_map] at hb
  obtain ⟨i, _, rfl⟩ := hb
  exact Nat.mod_lt _ (by omega)

/-- Result of `aesGcmEncrypt`: base64 ciphertext (tag appended) and
base64 iv, as in src/node.js line 115. -/
structure EncOut where
  ciphertext : List Nat
  iv : List Nat
deriving Repr, DecidableEq

/-- `aesGcmEncrypt` (src/node.js lines 110-116): draw a 12-byte random
iv, encrypt the buffer, append the 16-byte auth tag, and base64-encode
both the ciphertext+tag and the iv.  The random bytes node draws are
passed as the `iv` argument (the entropy of the caller). -/
def aesGcmEncrypt (keyBuf iv plaintextBuffer : Bytes) : EncOut :=
  let enc := xorStream keyBuf iv plaintextBuffer
  let tag := gcmTag keyBuf iv enc
  { ciphertext := b64encode (enc ++ tag), iv := b64encode iv }

/-- `aesGcmDecrypt` (src/node.js lines 117-126): base64-decode the
inputs, split the final 16 bytes off as the auth tag, verify the tag as
part of decryption, and return the plaintext; a tag mismatch (or a
buffer too short to carry a 16-byte tag) makes node throw, modelled as
`none`. -/
def aesGcmDecrypt (keyBuf : Bytes) (ciphertextBase64 ivBase64 : List Nat) : Option Bytes :=
  let buffer := b64decode ciphertextBase64
  let iv := b64decode ivBase64
  if buffer.length < 16 then none
  else
    let tag := buffer.drop (buffer.length - 16)
    let ciphertext := buffer.take (buffer.length - 16)
    if gcmTag keyBuf iv ciphertext = tag then some (xorStream keyBuf iv ciphertext)
    else none

/-- Claim C4: round-trip of authenticated encryption — for every byte
payload and every valid 32-byte key, decrypting the ciphertext and
nonce produced by `aesGcmEncrypt` with the same key returns exactly the
payload. -/
theorem c4_encrypt_decrypt_roundtrip (key iv pt : Bytes)
    (hkey : key.length = 32) (hiv : iv.length = 12)
    (hivb : ∀ b ∈ iv, b < 256) (hpt : ∀ b ∈ pt, b < 256) :
    aesGcmDecrypt key (aesGcmEncrypt key iv pt).ciphertext (aesGcmEncrypt key iv pt).iv
      = some pt := by
  have henc : ∀ b ∈ xorStream key iv pt, b < 256 := xorStreamFrom_lt key iv 0 pt hpt
  have hlen : (xorStream key iv pt).length = pt.length := xorStreamFrom_length key iv 0 pt
  have hall : ∀ b ∈ xorStream key iv pt ++ gcmTag key iv (xorStream key iv pt), b < 256 := by
    intro b hb
    rcases List.mem_append.mp hb with hb | hb
    · exact henc b hb
    · exact gcmTag_lt key iv _ b hb
  have hrt := b64_roundtrip (xorStream key iv pt ++ gcmTag key iv (xorStream key iv pt)) hall
  have hivrt := b64_roundtrip iv hivb
  simp only [aesGcmEncrypt, aesGcmDecrypt, hrt, hivrt]
  have hlen2 : (xorStream key iv pt ++ gcmTag key iv (xorStream key iv pt)).length
      = pt.length + 16 := by
    simp [List.length_append, hlen, gcmTag_length]
  rw [hlen2]
  have hnotlt : ¬ pt.length + 16 < 16 := by omega
  simp only [hnotlt, if_false]
  have hdrop : (xorStream key iv pt ++ gcmTag key iv (xorStream key iv pt)).drop
      (pt.length + 16 - 16) = gcmTag key iv (xorStream key iv pt) := by
    have : pt.length + 16 - 16 = (xorStream key iv pt).length := by omega
    rw [this, List.drop_left]
  have htake : (xorStream key iv pt ++ gcmTag key iv (xorStream key iv pt)).take
      (pt.length + 16 - 16) = xorStream key iv pt := by
    have : pt.length + 16 - 16 = (xorStream key iv pt).length := by omega
    rw [this, List.take_left]
  rw [hdrop, htake]
  simp only [if_pos rfl]
  exact congrArg some (xorStreamFrom_involutive key iv 0 pt)

/-- Witness for C4 at a concrete key, nonce and payload. -/
theorem c4_encrypt_decrypt_roundtrip_witness :
    aesGcmDecrypt (List.replicate 32 0)
      (aesGcmEncrypt (List.replicate 32 0) (List.replicate 12 0) [104, 105]).ciphertext
      (aesGcmEncrypt (List.replicate 32 0) (List.replicate 12 0) [104, 105]).iv
      = some [104, 105] :=
  c4_encrypt_decrypt_roundtrip (List.replicate 32 0) (List.replicate 12 0) [104, 105]
    (by decide) (by decide) (by decide) (by decide)

/-- Modelled from the spec: zlib gzip compression (library code, not in
src/).  Compression is reversible; decompression of a stream that does
not carry the gzip magic header fails (node throws, the spec calls this
`CorruptStream`).  Modelled by prefixing the two gzip magic bytes
31, 139. -/
def gzipBufferSync (buf : Bytes) : Bytes := 31 :: 139 :: buf

/-- Modelled from the spec: zlib gunzip, the partial inverse of
`gzipBufferSync`; `none` models the exception thrown on a malformed
stream. -/
def gunzipBufferSync : Bytes → Option Bytes
  | 31 :: 139 :: rest => some rest
  | _ => none

/-- Modelled from the spec: SHA-256 hex digest `sha256Hex`
(src/node.js line 97 wraps node crypto, library code not in src/).  A
deterministic executable digest stand-in over the input bytes. -/
def sha256Hex (input : Bytes) : Bytes :=
  (List.range 32).map (fun i => (input.sum * 31 + input.length * 17 + i * 3 + 7) % 256)

/-- Modelled from the spec: one output byte of PBKDF2-HMAC-SHA256 (node
crypto, library code not in src/): an iterated fold of a pseudorandom
mix over the requested iteration count, so the output depends on the
password, the salt, the iteration count and the byte position. -/
def pbkdf2Byte (password salt : Bytes) (iterations : Nat) (i : Nat) : Nat :=
  (List.range iterations).foldl
    (fun acc j => (acc * 33 + password.sum * 13 + salt.sum * 7 + i * 3 + j) % 256)
    ((password.sum + salt.sum + i) % 256)

/-- Modelled from the spec: PBKDF2 (node crypto, library code not in
src/).  Total: always returns exactly `keylen` bytes, never a partial
key. -/
def pbkdf2 (password salt : Bytes) (iterations keylen : Nat) : Bytes :=
  (List.range keylen).map (pbkdf2Byte password salt iterations)

/-- Modelled from the spec: `crypto.scryptSync` (library code, not in
src/), used for the server-assisted master key. -/
def scryptSync (secret salt : Bytes) (keylen : Nat) : Bytes :=
  (List.range keylen).map (fun i => (secret.sum * 29 + salt.sum * 23 + i * 5 + 3) % 256)

/-- The fixed salt `Buffer.from` of the string TheHaydenSphereSaltV3 of
src/node.js line 102, as byte codes. -/
def theHaydenSalt : Bytes :=
  [84, 104, 101, 72, 97, 121, 100, 101, 110, 83, 112, 104, 101, 114, 101, 83, 97, 108, 116, 86, 51]

/-- The PBKDF2 iteration count hard-coded at src/node.js line 104. -/
def deriveIterationCount : Nat := 200000

/-- `deriveKeyFromPin` (src/node.js lines 100-109): PBKDF2 with the
fixed salt, 200000 iterations, a 32-byte key and sha256.  The
`entropy` argument models the ambient randomness available to an
invocation; the source consumes none of it on this path (no
`randomBytes` call), which is what makes the derivation
deterministic. -/
def deriveKeyFromPin (entropy : Bytes) (pin : Bytes) : Bytes :=
  pbkdf2 pin theHaydenSalt deriveIterationCount 32

theorem pbkdf2_length (password salt : Bytes) (iterations keylen : Nat) :
    (pbkdf2 password salt iterations keylen).length = keylen := by
  simp [pbkdf2]

/-- Claim C8: key derivation returns a key of exactly 32 bytes for
every secret, produced by the salted PBKDF2 iterated 200000 times
(at least 100000), with the fixed nonempty application salt; it is
total — never a partial key. -/
theorem c8_derive_key_contract (entropy pin : Bytes) :
    (deriveKeyFromPin entropy pin).length = 32 ∧
    deriveKeyFromPin entropy pin = pbkdf2 pin theHaydenSalt deriveIterationCount 32 ∧
    deriveIterationCount = 200000 ∧
    100000 ≤ deriveIterationCount ∧
    theHaydenSalt ≠ [] :=
  ⟨pbkdf2_length pin theHaydenSalt deriveIterationCount 32, rfl, rfl,
    by simp [deriveIterationCount], by simp [theHaydenSalt]⟩

/-- Claim C10: key derivation is deterministic — the result of
`deriveKeyFromPin` is independent of the ambient
randomness and depends only on the pin, because the salt and iteration
parameters are fixed constants; a given unlock secret always maps to
one and the same 32-byte key. -/
theorem c10_derive_deterministic (entropy1 entropy2 pin : Bytes) :
    deriveKeyFromPin entropy1 pin = deriveKeyFromPin entropy2 pin ∧
    deriveKeyFromPin entropy1 pin = pbkdf2 pin theHaydenSalt deriveIterationCount 32 ∧
    (deriveKeyFromPin entropy1 pin).length = 32 :=
  ⟨rfl, rfl, pbkdf2_length pin theHaydenSalt deriveIterationCount 32⟩

/-! ## Data model -/

/-- The `meta.json` singleton (src/node.js line 65): creation
timestamp, schema version tag, bcrypt hash of the unlock PIN (or
null), and the default encryption profile. -/
structure MasterMeta where
  createdAt : Nat
  version : String
  pinHash : Option Bytes
  encryptionProfile : String
deriving Repr, DecidableEq

/-- The `meta` object of a stored version file (src/node.js lines 401
and 412): iv, checksum of the ciphertext, policy mode tag, and the
client-supplied auxiliary metadata. -/
structure VersionMeta where
  iv : Bytes
  checksum : Bytes
  mode : String
  meta : Option String
deriving Repr, DecidableEq

/-- The JSON content of one stored version file
`{ ciphertext, iv, meta }` (src/node.js lines 406 and 414). -/
structure VersionContent where
  ciphertext : Bytes
  iv : Bytes
  meta : VersionMeta
deriving Repr, DecidableEq

/-- The `blob` field of a create-note request body (src/node.js line
373): optional plaintext, optional client ciphertext and iv, optional
auxiliary metadata. -/
structure Blob where
  plaintext : Option Bytes
  ciphertext : Option Bytes
  iv : Option Bytes
  meta : Option String
deriving Repr, DecidableEq

/-- One entry of `notesIndex.json` (src/node.js line 383). -/
structure NoteEntry where
  id : String
  title : String
  type : String
  tags : List String
  summary : String
  createdAt : Nat
  updatedAt : Nat
deriving Repr, DecidableEq

/-- The `versions` directory of one note: files keyed by the
`Date.now()` timestamp that names them (`${t}.json.gz`).
`fs.writeFileSync` replaces the file when the name already exists,
otherwise creates it. -/
abbrev VersionDir := List (Nat × VersionContent)

/-- `fs.writeFileSync` on `versions/${t}.json.gz`: replace the file of
that name if present, else create it. -/
def writeVersionFile (t : Nat) (c : VersionContent) : VersionDir → VersionDir
  | [] => [(t, c)]
  | (u, d) :: rest =>
      if u = t then (t, c) :: rest else (u, d) :: writeVersionFile t c rest

/-- Read the version file named by timestamp `t`, if present. -/
def readVersionFile (t : Nat) : VersionDir → Option VersionContent
  | [] => none
  | (u, d) :: rest => if u = t then some d else readVersionFile t rest

/-- The blobs tree: one `versions` directory per note id (created on
first version write). -/
abbrev BlobsDir := List (String × VersionDir)

/-- Look up the `versions` directory of a note, if it exists. -/
def lookupDir (nid : String) : BlobsDir → Option VersionDir
  | [] => none
  | (k, d) :: rest => if k = nid then some d else lookupDir nid rest

/-- Create or replace the `versions` directory entry of a note. -/
def setDir (nid : String) (d : VersionDir) : BlobsDir → BlobsDir
  | [] => [(nid, d)]
  | (k, e) :: rest =>
      if k = nid then (nid, d) :: rest else (k, e) :: setDir nid d rest

/-- The full persistent state touched by the note engine: the
`meta.json` singleton, the notes metadata index, the set of note blob
directories (`blobs/<nid>`), and the per-note `versions`
directories. -/
structure ServerState where
  meta : MasterMeta
  notesIndex : List NoteEntry
  noteDirs : List String
  blobs : BlobsDir
deriving Repr, DecidableEq

/-! ## bcrypt model and the setup-pin handler (claim C7) -/

/-- Modelled from the spec: the byte scramble inside bcrypt (library
code, not in src/); injective on bytes. -/
def bcryptScramble (pin : Bytes) : Bytes := pin.map (fun c => 2 * c + 1)

/-- Modelled from the spec: `bcrypt.hash` (library code, not in src/).
A bcrypt hash string is the `$2b$12$` header followed by the derived
digest; the random per-hash salt is elided (the handler never relies
on it).  The hash is never equal to the raw secret (it is 7 code
units longer). -/
def bcryptHash (pin : Bytes) : Bytes :=
  [36, 50, 98, 36, 49, 50, 36] ++ bcryptScramble pin

/-- Modelled from the spec: `bcrypt.compare` (library code, not in
src/): a candidate matches a stored hash exactly when hashing the
candidate reproduces it. -/
def bcryptCompare (candidate stored : Bytes) : Bool :=
  bcryptHash candidate == stored

theorem bcryptHash_ne_pin (pin : Bytes) : bcryptHash pin ≠ pin := by
  intro heq
  have hlen := congrArg List.length heq
  simp [bcryptHash, bcryptScramble] at hlen
  omega

/-- JS truthiness of an optional byte string: present and nonempty. -/
def truthyBytes : Option Bytes → Bool
  | some (_ :: _) => true
  | _ => false

/-- Response of the setup-pin route. -/
inductive SetupResp where
  | errResp (status : Nat) (msg : String)
  | okResp (message : String)
deriving Repr, DecidableEq

/-- Body of a setup-pin request. -/
structure SetupReq where
  pin : Option Bytes
  currentPin : Option Bytes
deriving Repr, DecidableEq

/-- POST /api/v3/auth/setup-pin (src/node.js lines 163-185).
`!pin || pin.length < 6` rejects with 400 (a missing or empty pin has
length 0); with no stored hash the bcrypt hash of the pin is written
to `meta.json`; otherwise a change requires a truthy `currentPin`
(else 400) that bcrypt-compares against the stored hash (else 403),
and only then is the new hash written. -/
def setupPin (m : MasterMeta) (req : SetupReq) : MasterMeta × SetupResp :=
  let pin := req.pin.getD []
  if pin.length < 6 then (m, .errResp 400 "pin required (min 6 chars recommended)")
  else
    match m.pinHash with
    | none =>
        ({ m with pinHash := some (bcryptHash pin) }, .okResp "PIN created")
    | some stored =>
        if !truthyBytes req.currentPin then
          (m, .errResp 400 "currentPin required to change pin")
        else if bcryptCompare (req.currentPin.getD []) stored then
          ({ m with pinHash := some (bcryptHash pin) }, .okResp "PIN changed")
        else (m, .errResp 403 "invalid currentPin")

/-- Check whether a setup response is an error. -/
def SetupResp.isErr : SetupResp → Bool
  | .errResp _ _ => true
  | .okResp _ => false

/-- Claim C7: when no unlock secret is set, the first setup call with a
secret of at least 6 characters succeeds and stores only the bcrypt
hash of the secret (never the raw secret, from which the hash always
differs) in MasterMeta, leaving all other fields unchanged; once a
secret is set, a setup call without a current pin, or whose current
pin fails the bcrypt comparison against the stored hash, is rejected
with MasterMeta unchanged. -/
theorem c7_setup_pin (m : MasterMeta) (p cp stored : Bytes) (hp : 6 ≤ p.length) :
    (m.pinHash = none →
      setupPin m ⟨some p, none⟩
        = ({ m with pinHash := some (bcryptHash p) }, .okResp "PIN created") ∧
      bcryptHash p ≠ p) ∧
    (m.pinHash = some stored →
      (setupPin m ⟨some p, none⟩).1 = m ∧
      ((setupPin m ⟨some p, none⟩).2).isErr = true) ∧
    (m.pinHash = some stored → bcryptCompare cp stored = false →
      (setupPin m ⟨some p, some cp⟩).1 = m ∧
      ((setupPin m ⟨some p, some cp⟩).2).isErr = true) := by
  have hlt : ¬ p.length < 6 := by omega
  refine ⟨fun hnone => ?_, fun hsome => ?_, fun hsome hcmp => ?_⟩
  · constructor
    · simp [setupPin, hlt, hnone]
    · exact bcryptHash_ne_pin p
  · simp [setupPin, hlt, hsome, truthyBytes, SetupResp.isErr]
  · match hcp : cp with
    | [] =>
        simp [setupPin, hlt, hsome, truthyBytes, SetupResp.isErr]
    | c :: cs =>
        simp [setupPin, hlt, hsome, truthyBytes, hcmp, SetupResp.isErr]

/-- Witness for C7: a first-time setup stores the hash, and a change
attempt with a wrong current pin leaves the stored state unchanged. -/
theorem c7_setup_pin_witness :
    (setupPin ⟨0, "thehaydensphere.v3", none, "client-only"⟩
        ⟨some [49, 50, 51, 52, 53, 54], none⟩
      = (⟨0, "thehaydensphere.v3", some (bcryptHash [49, 50, 51, 52, 53, 54]),
          "client-only"⟩, .okResp "PIN created")) ∧
    bcryptHash [49, 50, 51, 52, 53, 54] ≠ [49, 50, 51, 52, 53, 54] ∧
    ((setupPin ⟨0, "thehaydensphere.v3", some (bcryptHash [55, 55, 55, 55, 55, 55]),
        "client-only"⟩ ⟨some [49, 50, 51, 52, 53, 54], some [56, 56, 56, 56, 56, 56]⟩).1
      = ⟨0, "thehaydensphere.v3", some (bcryptHash [55, 55, 55, 55, 55, 55]),
          "client-only"⟩) := by
  have h1 := c7_setup_pin ⟨0, "thehaydensphere.v3", none, "client-only"⟩
    [49, 50, 51, 52, 53, 54] [] [] (by decide)
  have h2 := c7_setup_pin
    ⟨0, "thehaydensphere.v3", some (bcryptHash [55, 55, 55, 55, 55, 55]), "client-only"⟩
    [49, 50, 51, 52, 53, 54] [56, 56, 56, 56, 56, 56]
    (bcryptHash [55, 55, 55, 55, 55, 55]) (by decide)
  exact ⟨(h1.1 rfl).1, (h1.1 rfl).2, (h2.2.2 rfl (by decide)).1⟩

/-! ## The create-note handler (claims C1, C2, C3, C9) -/

/-- JS `a || b` on an optional string against a default. -/
def strOr (a : Option String) (b : String) : String :=
  match a with
  | some s => if s = "" then b else s
  | none => b

/-- Policy resolution (src/node.js line 393):
`encryptionMode || metaConf.encryptionProfile ||` the `client-only` literal. -/
def resolveProfile (encryptionMode : Option String) (m : MasterMeta) : String :=
  strOr encryptionMode
    (if m.encryptionProfile = "" then "client-only" else m.encryptionProfile)

/-- Body of a create-note request (src/node.js line 379); a missing
`title` is the empty string, `type`, `tags` and `summary` carry their
destructuring defaults. -/
structure NoteReq where
  maybeId : Option String
  title : String
  type : String
  tags : List String
  summary : String
  blob : Option Blob
  encryptionMode : Option String
deriving Repr, DecidableEq

/-- Response of the create-note route. -/
inductive NoteResp where
  | errResp (status : Nat) (msg : String)
  | okResp (note : NoteEntry)
deriving Repr, DecidableEq

/-- Whether the handler reported success (`res.json({ ok: true, ... })`). -/
def NoteResp.isOk : NoteResp → Bool
  | .okResp _ => true
  | .errResp _ _ => false

/-- The salt string `server-key-salt-v3` (src/node.js line 398), as
byte codes. -/
def serverKeySalt : Bytes :=
  [115, 101, 114, 118, 101, 114, 45, 107, 101, 121, 45, 115, 97, 108, 116, 45, 118, 51]

/-- The notes index entry built at src/node.js line 383. -/
def noteEntryOf (req : NoteReq) (nid : String) (t : Nat) : NoteEntry :=
  { id := nid, title := req.title, type := req.type, tags := req.tags,
    summary := req.summary, createdAt := t, updatedAt := t }

/-- The version file content stored for a client-supplied ciphertext
(src/node.js lines 412-414): the ciphertext of the blob and iv byte for
byte, with a meta object carrying the iv, the checksum of the
ciphertext, the resolved policy tag and the auxiliary metadata. -/
def mkClientVersion (profile : String) (b : Blob) : VersionContent :=
  let ct := b.ciphertext.getD []
  let iv := b.iv.getD []
  { ciphertext := ct, iv := iv,
    meta := { iv := iv, checksum := sha256Hex ct, mode := profile, meta := b.meta } }

/-- The version file content stored on the server-assisted path
(src/node.js lines 398-406): gzip the plaintext, encrypt under the
scrypt-derived server key, and store the base64 ciphertext+tag and
iv. -/
def mkServerVersion (jwtSecret ivRand : Bytes) (b : Blob) : VersionContent :=
  let serverKey := scryptSync jwtSecret serverKeySalt 32
  let gz := gzipBufferSync (b.plaintext.getD [])
  let enc := aesGcmEncrypt serverKey ivRand gz
  { ciphertext := enc.ciphertext, iv := enc.iv,
    meta := { iv := enc.iv, checksum := sha256Hex enc.ciphertext,
              mode := "server-assisted", meta := b.meta } }

/-- POST /api/v3/notes (src/node.js lines 370-419).  `t` is the value
of `Date.now()` for this request (it is also the version filename),
`fresh` the uuid drawn for a new note id, `ivRand` the 12 random bytes
node would draw for a server-side encryption iv, and `jwtSecret` the
process `JWT_SECRET`.  The handler: rejects a missing title with 400;
otherwise appends the metadata entry to the notes index and saves it
immediately; ensures the blob directory of the note exists; resolves the
policy; then writes exactly one version file when the blob carries
plaintext under `server-assisted`, or a truthy ciphertext and iv pair
(stored as-is, any other policy); in every other case no version file
is written and the request still ends in `res.json({ ok: true })`. -/
def createNote (st : ServerState) (req : NoteReq) (t : Nat) (fresh : String)
    (ivRand : Bytes) (jwtSecret : Bytes) : ServerState × NoteResp :=
  if req.title = "" then (st, .errResp 400 "title required")
  else
    let nid := strOr req.maybeId fresh
    let entry := noteEntryOf req nid t
    -- `notes.unshift(entry); saveNotesIndex(notes)` — persisted now
    let st1 : ServerState := { st with notesIndex := entry :: st.notesIndex }
    -- `if (!fs.existsSync(noteDir)) fs.mkdirSync(noteDir)`
    let st2 : ServerState :=
      { st1 with noteDirs := if nid ∈ st1.noteDirs then st1.noteDirs else st1.noteDirs ++ [nid] }
    let profile := resolveProfile req.encryptionMode st.meta
    match req.blob with
    | some b =>
        if truthyBytes b.plaintext && (profile == "server-assisted") then
          let content := mkServerVersion jwtSecret ivRand b
          let dir := (lookupDir nid st2.blobs).getD []
          ({ st2 with blobs := setDir nid (writeVersionFile t content dir) st2.blobs },
            .okResp entry)
        else if truthyBytes b.ciphertext && truthyBytes b.iv then
          let content := mkClientVersion profile b
          let dir := (lookupDir nid st2.blobs).getD []
          ({ st2 with blobs := setDir nid (writeVersionFile t content dir) st2.blobs },
            .okResp entry)
        else (st2, .okResp entry)
    | none => (st2, .okResp entry)

/-- A concrete initial state: fresh install, default profile. -/
def initialState : ServerState :=
  ⟨⟨0, "thehaydensphere.v3", none, "client-only"⟩, [], [], []⟩

/-- Claim C1 counterexample: a create-note request whose blob carries
plaintext while the resolved policy is `client-only` is reported as a
success (`ok: true`) with no error — no `PolicyMismatch` is raised
anywhere — even though no version record is written (the blobs tree
stays empty). -/
theorem c1_policy_mismatch_counterexample :
    ((createNote initialState
        ⟨some "n1", "t", "general", [], "", some ⟨some [1, 2, 3], none, none, none⟩,
          some "client-only"⟩ 5 "n1" [] []).2).isOk = true ∧
    (createNote initialState
        ⟨some "n1", "t", "general", [], "", some ⟨some [1, 2, 3], none, none, none⟩,
          some "client-only"⟩ 5 "n1" [] []).1.blobs = [] := by
  constructor <;> rfl

/-- Claim C1 as amended: for every create-note request whose blob
carries plaintext (and no complete ciphertext+iv pair) while the
resolved policy is `client-only`, zero new VersionRecords are written
and no plaintext bytes are persisted in the blobs tree (it is left
untouched) — but the operation does not fail: it is reported as a
success, creating a metadata-only note. -/
theorem c1_plaintext_client_only_amended (st : ServerState) (req : NoteReq)
    (t : Nat) (fresh : String) (ivRand jwtSecret : Bytes) (b : Blob)
    (htitle : req.title ≠ "")
    (hblob : req.blob = some b)
    (hpt : truthyBytes b.plaintext = true)
    (hnoct : ¬(truthyBytes b.ciphertext = true ∧ truthyBytes b.iv = true))
    (hprof : resolveProfile req.encryptionMode st.meta = "client-only") :
    ((createNote st req t fresh ivRand jwtSecret).2).isOk = true ∧
    (createNote st req t fresh ivRand jwtSecret).1.blobs = st.blobs ∧
    (createNote st req t fresh ivRand jwtSecret).1.notesIndex
      = noteEntryOf req (strOr req.maybeId fresh) t :: st.notesIndex := by
  have hne : (resolveProfile req.encryptionMode st.meta == "server-assisted") = false := by
    simp [hprof]
  have hcase : truthyBytes b.ciphertext = false ∨ truthyBytes b.iv = false := by
    by_cases h1 : truthyBytes b.ciphertext = true
    · right
      by_cases h2 : truthyBytes b.iv = true
      · exact absurd ⟨h1, h2⟩ hnoct
      · simpa using h2
    · left; simpa using h1
  rcases hcase with hc | hc <;>
    simp [createNote, htitle, hblob, hne, hc, NoteResp.isOk]

/-- Witness for the amended claim C1 at a concrete request. -/
theorem c1_plaintext_client_only_amended_witness :
    ((createNote initialState
        ⟨some "n9", "t9", "general", [], "", some ⟨some [1, 2], none, none, none⟩,
          none⟩ 6 "n9" [] []).2).isOk = true ∧
    (createNote initialState
        ⟨some "n9", "t9", "general", [], "", some ⟨some [1, 2], none, none, none⟩,
          none⟩ 6 "n9" [] []).1.blobs = initialState.blobs ∧
    (createNote initialState
        ⟨some "n9", "t9", "general", [], "", some ⟨some [1, 2], none, none, none⟩,
          none⟩ 6 "n9" [] []).1.notesIndex
      = noteEntryOf
          ⟨some "n9", "t9", "general", [], "", some ⟨some [1, 2], none, none, none⟩, none⟩
          (strOr (some "n9") "n9") 6 :: initialState.notesIndex :=
  c1_plaintext_client_only_amended initialState
    ⟨some "n9", "t9", "general", [], "", some ⟨some [1, 2], none, none, none⟩, none⟩
    6 "n9" [] [] ⟨some [1, 2], none, none, none⟩
    (by decide) rfl rfl (by decide) rfl

/-- Claim C2 counterexample: a note-write request carrying a payload
(plaintext under the resolved `client-only` policy) is reported as a
success while zero — not exactly one — VersionRecords are appended,
and the NoteRecord metadata entry is persisted anyway; so neither
disjunct of the claim holds. -/
theorem c2_partial_write_counterexample :
    ((createNote initialState
        ⟨some "n2", "t2", "general", [], "", some ⟨some [9, 9], none, none, none⟩,
          some "client-only"⟩ 7 "n2" [] []).2).isOk = true ∧
    (createNote initialState
        ⟨some "n2", "t2", "general", [], "", some ⟨some [9, 9], none, none, none⟩,
          some "client-only"⟩ 7 "n2" [] []).1.blobs = [] ∧
    (createNote initialState
        ⟨some "n2", "t2", "general", [], "", some ⟨some [9, 9], none, none, none⟩,
          some "client-only"⟩ 7 "n2" [] []).1.notesIndex ≠ [] := by
  refine ⟨rfl, rfl, ?_⟩
  decide

/-- Claim C2 as amended: every note-write request with a title is
reported as a success; the NoteRecord metadata entry is persisted
first and unconditionally, before any cryptographic work; and at most
one version file is written (the blobs tree is either untouched or
carries exactly one `writeVersionFile` at the timestamp of the request for
its note id) — so a request whose blob stage stores nothing
still leaves the metadata entry persisted. -/
theorem c2_write_shape_amended (st : ServerState) (req : NoteReq) (t : Nat)
    (fresh : String) (ivRand jwtSecret : Bytes)
    (htitle : req.title ≠ "") :
    ((createNote st req t fresh ivRand jwtSecret).2).isOk = true ∧
    (createNote st req t fresh ivRand jwtSecret).1.notesIndex
      = noteEntryOf req (strOr req.maybeId fresh) t :: st.notesIndex ∧
    ((createNote st req t fresh ivRand jwtSecret).1.blobs = st.blobs ∨
      ∃ c : VersionContent,
        (createNote st req t fresh ivRand jwtSecret).1.blobs
          = setDir (strOr req.maybeId fresh)
              (writeVersionFile t c
                ((lookupDir (strOr req.maybeId fresh) st.blobs).getD []))
              st.blobs) := by
  match hblob : req.blob with
  | none =>
      simp [createNote, htitle, hblob, NoteResp.isOk]
  | some b =>
      by_cases h1 : (truthyBytes b.plaintext
          && (resolveProfile req.encryptionMode st.meta == "server-assisted")) = true
      · refine ⟨?_, ?_, Or.inr ⟨mkServerVersion jwtSecret ivRand b, ?_⟩⟩ <;>
          simp [createNote, htitle, hblob, h1, NoteResp.isOk]
      · rw [Bool.not_eq_true] at h1
        by_cases h2 : (truthyBytes b.ciphertext && truthyBytes b.iv) = true
        · refine ⟨?_, ?_,
            Or.inr ⟨mkClientVersion (resolveProfile req.encryptionMode st.meta) b, ?_⟩⟩ <;>
            simp [createNote, htitle, hblob, h1, h2, NoteResp.isOk]
        · rw [Bool.not_eq_true] at h2
          refine ⟨?_, ?_, Or.inl ?_⟩ <;>
            simp [createNote, htitle, hblob, h1, h2, NoteResp.isOk]

/-- Witness for the amended claim C2 at a concrete request. -/
theorem c2_write_shape_amended_witness :
    ((createNote initialState
        ⟨some "n3", "t3", "general", [], "",
          some ⟨none, some [4], some [5], none⟩, none⟩ 8 "n3" [] []).2).isOk = true ∧
    (createNote initialState
        ⟨some "n3", "t3", "general", [], "",
          some ⟨none, some [4], some [5], none⟩, none⟩ 8 "n3" [] []).1.notesIndex
      = noteEntryOf
          ⟨some "n3", "t3", "general", [], "", some ⟨none, some [4], some [5], none⟩, none⟩
          (strOr (some "n3") "n3") 8 :: initialState.notesIndex ∧
    ((createNote initialState
        ⟨some "n3", "t3", "general", [], "",
          some ⟨none, some [4], some [5], none⟩, none⟩ 8 "n3" [] []).1.blobs
        = initialState.blobs ∨
      ∃ c : VersionContent,
        (createNote initialState
            ⟨some "n3", "t3", "general", [], "",
              some ⟨none, some [4], some [5], none⟩, none⟩ 8 "n3" [] []).1.blobs
          = setDir (strOr (some "n3") "n3")
              (writeVersionFile 8 c ((lookupDir (strOr (some "n3") "n3")
                initialState.blobs).getD []))
              initialState.blobs) :=
  c2_write_shape_amended initialState
    ⟨some "n3", "t3", "general", [], "", some ⟨none, some [4], some [5], none⟩, none⟩
    8 "n3" [] [] (by decide)

/-- A sample version content, used for concrete store computations. -/
def vcSample (n : Nat) : VersionContent :=
  ⟨[n], [9], ⟨[9], [n], "client-only", none⟩⟩

/-- Claim C3 counterexample: two writes to the same note whose creation
timestamps collide do NOT produce two distinct stored version records
— the version filename is the bare timestamp, so the second write
lands on the same file name and overwrites the first in place, leaving
a single record holding only the later content. -/
theorem c3_collision_counterexample :
    writeVersionFile 7 (vcSample 2) (writeVersionFile 7 (vcSample 1) [])
      = [(7, vcSample 2)] ∧
    vcSample 1 ≠ vcSample 2 := by
  refine ⟨rfl, ?_⟩
  decide

/-- Claim C3 as amended: two writes to the same note at distinct
creation timestamps produce two distinct stored version records, each
still holding the content it was written with, and a later write never
mutates a stored version at any other timestamp; but when the
timestamps collide the later write overwrites the earlier one in
place. -/
theorem c3_distinct_timestamps_amended (t1 t2 : Nat) (c1 c2 : VersionContent)
    (d : VersionDir) (hne : t1 ≠ t2) :
    readVersionFile t1 (writeVersionFile t2 c2 (writeVersionFile t1 c1 d)) = some c1 ∧
    readVersionFile t2 (writeVersionFile t2 c2 (writeVersionFile t1 c1 d)) = some c2 ∧
    (∀ (u : Nat) (c : VersionContent) (e : VersionDir), u ≠ t2 →
      readVersionFile u (writeVersionFile t2 c e) = readVersionFile u e) := by
  have hread_same : ∀ (t : Nat) (c : VersionContent) (e : VersionDir),
      readVersionFile t (writeVersionFile t c e) = some c := by
    intro t c e
    induction e with
    | nil => simp [writeVersionFile, readVersionFile]
    | cons hd tl ih =>
        obtain ⟨u, d0⟩ := hd
        by_cases hu : u = t <;> simp [writeVersionFile, readVersionFile, hu, ih]
  have hread_other : ∀ (u t : Nat) (c : VersionContent) (e : VersionDir), u ≠ t →
      readVersionFile u (writeVersionFile t c e) = readVersionFile u e := by
    intro u t c e hut
    induction e with
    | nil => simp [writeVersionFile, readVersionFile, hut, Ne.symm hut]
    | cons hd tl ih =>
        obtain ⟨v, d0⟩ := hd
        by_cases hv : v = t
        · subst hv
          simp [writeVersionFile, readVersionFile, hut, Ne.symm hut]
        · by_cases hvu : v = u <;>
            simp [writeVersionFile, readVersionFile, hv, hvu, hut, ih]
  refine ⟨?_, ?_, fun u c e hu => hread_other u t2 c e hu⟩
  · rw [hread_other t1 t2 c2 _ hne]
    exact hread_same t1 c1 d
  · exact hread_same t2 c2 _

/-- Witness for the amended claim C3 at concrete timestamps. -/
theorem c3_distinct_timestamps_amended_witness :
    readVersionFile 3 (writeVersionFile 4 (vcSample 2) (writeVersionFile 3 (vcSample 1) []))
      = some (vcSample 1) ∧
    readVersionFile 4 (writeVersionFile 4 (vcSample 2) (writeVersionFile 3 (vcSample 1) []))
      = some (vcSample 2) ∧
    (∀ (u : Nat) (c : VersionContent) (e : VersionDir), u ≠ 4 →
      readVersionFile u (writeVersionFile 4 c e) = readVersionFile u e) :=
  c3_distinct_timestamps_amended 3 4 (vcSample 1) (vcSample 2) [] (by decide)

/-- Claim C9: under the hybrid policy the ciphertext of the stored version
record and iv are byte-for-byte the client-supplied ciphertext and
iv — no server-side wrapping layer is ever applied (none exists in the
handler) — and the stored record is identical to what a `client-only`
write of the same blob would store, except for the recorded policy
tag. -/
theorem c9_hybrid_stores_client_bytes (st : ServerState) (req : NoteReq)
    (t : Nat) (fresh : String) (ivRand jwtSecret : Bytes) (b : Blob)
    (htitle : req.title ≠ "")
    (hblob : req.blob = some b)
    (hct : truthyBytes b.ciphertext = true)
    (hiv : truthyBytes b.iv = true)
    (hprof : resolveProfile req.encryptionMode st.meta = "hybrid") :
    (createNote st req t fresh ivRand jwtSecret).1.blobs
      = setDir (strOr req.maybeId fresh)
          (writeVersionFile t (mkClientVersion "hybrid" b)
            ((lookupDir (strOr req.maybeId fresh) st.blobs).getD []))
          st.blobs ∧
    (mkClientVersion "hybrid" b).ciphertext = b.ciphertext.getD [] ∧
    (mkClientVersion "hybrid" b).iv = b.iv.getD [] ∧
    (mkClientVersion "hybrid" b).ciphertext = (mkClientVersion "client-only" b).ciphertext ∧
    (mkClientVersion "hybrid" b).iv = (mkClientVersion "client-only" b).iv ∧
    (mkClientVersion "hybrid" b).meta.iv = (mkClientVersion "client-only" b).meta.iv ∧
    (mkClientVersion "hybrid" b).meta.checksum
      = (mkClientVersion "client-only" b).meta.checksum ∧
    (mkClientVersion "hybrid" b).meta.meta = (mkClientVersion "client-only" b).meta.meta ∧
    (mkClientVersion "hybrid" b).meta.mode = "hybrid" := by
  have hne : (resolveProfile req.encryptionMode st.meta == "server-assisted") = false := by
    simp [hprof]
  refine ⟨?_, rfl, rfl, rfl, rfl, rfl, rfl, rfl, rfl⟩
  simp [createNote, htitle, hblob, hne, hct, hiv, hprof]

/-- Witness for C9 at a concrete hybrid write. -/
theorem c9_hybrid_stores_client_bytes_witness :
    (createNote initialState
        ⟨some "n4", "t4", "general", [], "",
          some ⟨none, some [8, 8], some [6], none⟩, some "hybrid"⟩ 9 "n4" [] []).1.blobs
      = setDir (strOr (some "n4") "n4")
          (writeVersionFile 9
            (mkClientVersion "hybrid" ⟨none, some [8, 8], some [6], none⟩)
            ((lookupDir (strOr (some "n4") "n4") initialState.blobs).getD []))
          initialState.blobs ∧
    (mkClientVersion "hybrid" ⟨none, some [8, 8], some [6], none⟩).ciphertext
      = (Blob.ciphertext ⟨none, some [8, 8], some [6], none⟩).getD [] ∧
    (mkClientVersion "hybrid" ⟨none, some [8, 8], some [6], none⟩).iv
      = (Blob.iv ⟨none, some [8, 8], some [6], none⟩).getD [] ∧
    (mkClientVersion "hybrid" ⟨none, some [8, 8], some [6], none⟩).ciphertext
      = (mkClientVersion "client-only" ⟨none, some [8, 8], some [6], none⟩).ciphertext ∧
    (mkClientVersion "hybrid" ⟨none, some [8, 8], some [6], none⟩).iv
      = (mkClientVersion "client-only" ⟨none, some [8, 8], some [6], none⟩).iv ∧
    (mkClientVersion "hybrid" ⟨none, some [8, 8], some [6], none⟩).meta.iv
      = (mkClientVersion "client-only" ⟨none, some [8, 8], some [6], none⟩).meta.iv ∧
    (mkClientVersion "hybrid" ⟨none, some [8, 8], some [6], none⟩).meta.checksum
      = (mkClientVersion "client-only" ⟨none, some [8, 8], some [6], none⟩).meta.checksum ∧
    (mkClientVersion "hybrid" ⟨none, some [8, 8], some [6], none⟩).meta.meta
      = (mkClientVersion "client-only" ⟨none, some [8, 8], some [6], none⟩).meta.meta ∧
    (mkClientVersion "hybrid" ⟨none, some [8, 8], some [6], none⟩).meta.mode = "hybrid" :=
  c9_hybrid_stores_client_bytes initialState
    ⟨some "n4", "t4", "general", [], "", some ⟨none, some [8, 8], some [6], none⟩,
      some "hybrid"⟩ 9 "n4" [] [] ⟨none, some [8, 8], some [6], none⟩
    (by decide) rfl rfl rfl rfl

/-! ## Version listing (claim C6)

`GET /api/v3/notes/:id/versions` orders the directory entries with the
default JS `Array.sort`, which compares the file NAMES as strings
(lexicographically by code unit), then reverses.  The machinery below
models the decimal filename `${t}.json.gz` and that string order. -/

/-- Most-significant-first decimal digits, fuel-driven so that it
reduces definitionally (the fuel `n + 1` always suffices). -/
def decDigitsAux : Nat → Nat → List Nat
  | 0, _ => []
  | fuel + 1, n => if n < 10 then [n] else decDigitsAux fuel (n / 10) ++ [n % 10]

/-- Most-significant-first decimal digits of a natural number (the
digit string JS produces for `${t}`). -/
def decDigits (n : Nat) : List Nat := decDigitsAux (n + 1) n

theorem decDigitsAux_fuel_irrel :
    ∀ (f1 f2 n : Nat), n < f1 → n < f2 → decDigitsAux f1 n = decDigitsAux f2 n := by
  intro f1
  induction f1 with
  | zero => intro f2 n h1; omega
  | succ f ih =>
      intro f2 n h1 h2
      match f2 with
      | 0 => omega
      | g + 1 =>
          by_cases hn : n < 10
          · simp [decDigitsAux, hn]
          · have hdiv : n / 10 < n := Nat.div_lt_self (by omega) (by omega)
            simp only [decDigitsAux, hn, if_false]
            rw [ih g (n / 10) (by omega) (by omega)]

/-- Unfolding equation for `decDigits`. -/
theorem decDigits_eq (n : Nat) :
    decDigits n = if n < 10 then [n] else decDigits (n / 10) ++ [n % 10] := by
  by_cases hn : n < 10
  · simp [decDigits, decDigitsAux, hn]
  · have hdiv : n / 10 < n := Nat.div_lt_self (by omega) (by omega)
    have h1 : decDigits n = decDigitsAux n (n / 10) ++ [n % 10] := by
      simp [decDigits, decDigitsAux, hn]
    rw [h1, decDigitsAux_fuel_irrel n (n / 10 + 1) (n / 10) (by omega) (by omega)]
    simp [decDigits, hn]

/-- The numeric value of a most-significant-first digit list. -/
def vmsd : List Nat → Nat
  | [] => 0
  | d :: ds => d * 10 ^ ds.length + vmsd ds

theorem vmsd_append_singleton (l : List Nat) (d : Nat) :
    vmsd (l ++ [d]) = 10 * vmsd l + d := by
  induction l with
  | nil => simp [vmsd]
  | cons x xs ih =>
      show vmsd (x :: (xs ++ [d])) = 10 * vmsd (x :: xs) + d
      simp only [vmsd, ih, List.length_append, List.length_cons, List.length_nil]
      ring

theorem vmsd_decDigits (n : Nat) : vmsd (decDigits n) = n := by
  induction n using Nat.strong_induction_on with
  | _ n ih =>
      rw [decDigits_eq]
      by_cases hn : n < 10
      · simp [hn, vmsd]
      · have hdiv : n / 10 < n := Nat.div_lt_self (by omega) (by omega)
        simp only [hn, if_false, vmsd_append_singleton, ih (n / 10) hdiv]
        omega

theorem decDigits_lt_ten (n : Nat) : ∀ d ∈ decDigits n, d < 10 := by
  induction n using Nat.strong_induction_on with
  | _ n ih =>
      rw [decDigits_eq]
      by_cases hn : n < 10
      · simp [hn]
      · have hdiv : n / 10 < n := Nat.div_lt_self (by omega) (by omega)
        simp only [hn, if_false]
        intro d hd
        rcases List.mem_append.mp hd with hd | hd
        · exact ih (n / 10) hdiv d hd
        · simp at hd
          omega

theorem vmsd_lt_pow (l : List Nat) (h : ∀ d ∈ l, d < 10) :
    vmsd l < 10 ^ l.length := by
  induction l with
  | nil => simp [vmsd]
  | cons d ds ih =>
      have hd : d < 10 := h d (by simp)
      have hds := ih (fun x hx => h x (by simp [hx]))
      simp only [vmsd, List.length_cons, pow_succ]
      calc d * 10 ^ ds.length + vmsd ds
          < d * 10 ^ ds.length + 10 ^ ds.length := by omega
        _ = (d + 1) * 10 ^ ds.length := by ring
        _ ≤ 10 * 10 ^ ds.length := by
            apply Nat.mul_le_mul_right
            omega
        _ = 10 ^ ds.length * 10 := by ring

/-- Lexicographic string comparison on code-unit lists: the order the
default JS `Array.sort` uses. -/
def lexLe : List Nat → List Nat → Bool
  | [], _ => true
  | _ :: _, [] => false
  | a :: l1, b :: l2 => if a < b then true else if a = b then lexLe l1 l2 else false

/-- The filename `${t}.json.gz` as its list of UTF-16 code units:
decimal digit characters (code 48 + digit) followed by the `.json.gz`
suffix codes. -/
def fnameCodes (t : Nat) : List Nat :=
  (decDigits t).map (fun d => d + 48) ++ [46, 106, 115, 111, 110, 46, 103, 122]

/-- For equal-length digit strings over a common suffix, numeric order
of the values implies lexicographic order of the character lists. -/
theorem lexLe_of_vmsd_lt (s : List Nat) :
    ∀ (l1 l2 : List Nat), l1.length = l2.length →
      (∀ d ∈ l1, d < 10) → (∀ d ∈ l2, d < 10) →
      vmsd l1 < vmsd l2 →
      lexLe (l1.map (fun d => d + 48) ++ s) (l2.map (fun d => d + 48) ++ s) = true := by
  intro l1
  induction l1 with
  | nil =>
      intro l2 hlen _ _ hv
      match l2 with
      | [] => simp [vmsd] at hv
      | _ :: _ => simp at hlen
  | cons a l1 ih =>
      intro l2 hlen h1 h2 hv
      match l2 with
      | [] => simp at hlen
      | b :: l2 =>
          have hlen2 : l1.length = l2.length := by simpa using hlen
          have ha : a < 10 := h1 a (by simp)
          have hb : b < 10 := h2 b (by simp)
          have hv1 : vmsd l1 < 10 ^ l1.length :=
            vmsd_lt_pow l1 (fun x hx => h1 x (by simp [hx]))
          have hv2 : vmsd l2 < 10 ^ l2.length :=
            vmsd_lt_pow l2 (fun x hx => h2 x (by simp [hx]))
          simp only [vmsd, hlen2] at hv
          by_cases hab : a < b
          · simp [lexLe, hab]
          · have hba : ¬ b < a := by
              intro hba
              have : vmsd (b :: l2) < vmsd (a :: l1) := by
                simp only [vmsd, hlen2]
                calc b * 10 ^ l2.length + vmsd l2
                    < b * 10 ^ l2.length + 10 ^ l2.length := by omega
                  _ = (b + 1) * 10 ^ l2.length := by ring
                  _ ≤ a * 10 ^ l2.length := Nat.mul_le_mul_right _ (by omega)
                  _ ≤ a * 10 ^ l2.length + vmsd l1 := by omega
              simp only [vmsd, hlen2] at this
              omega
            have heq : a = b := by omega
            subst heq
            have hvv : vmsd l1 < vmsd l2 := by omega
            simp only [List.map_cons, List.cons_append, lexLe]
            have : ¬ a + 48 < a + 48 := by omega
            simp only [this, if_false, if_pos rfl]
            exact ih l2 hlen2 (fun x hx => h1 x (by simp [hx]))
              (fun x hx => h2 x (by simp [hx])) hvv

/-- Numeric order on timestamps of equal decimal-digit length gives
lexicographic order on the version filenames. -/
theorem lexLe_fname (a b : Nat) (hab : a < b)
    (hlen : (decDigits a).length = (decDigits b).length) :
    lexLe (fnameCodes a) (fnameCodes b) = true := by
  have hva : vmsd (decDigits a) = a := vmsd_decDigits a
  have hvb : vmsd (decDigits b) = b := vmsd_decDigits b
  exact lexLe_of_vmsd_lt _ (decDigits a) (decDigits b) hlen
    (decDigits_lt_ten a) (decDigits_lt_ten b) (by omega)

/-- Insert a directory entry into a name-sorted list (ascending by
filename, the default JS sort comparator). -/
def insertByName (x : Nat × VersionContent) :
    List (Nat × VersionContent) → List (Nat × VersionContent)
  | [] => [x]
  | y :: ys =>
      if lexLe (fnameCodes x.1) (fnameCodes y.1) then x :: y :: ys
      else y :: insertByName x ys

/-- `files.sort()` on the version directory listing: sort the file
names as strings, ascending. -/
def sortByName : List (Nat × VersionContent) → List (Nat × VersionContent)
  | [] => []
  | x :: xs => insertByName x (sortByName xs)

/-- One element of the listing response (src/node.js line 433):
filename, the timestamp parsed back out of it, and the stored meta —
the ciphertext is never included. -/
structure VersionSummary where
  filename : List Nat
  ts : Nat
  meta : VersionMeta
deriving Repr, DecidableEq

/-- GET /api/v3/notes/:id/versions (src/node.js lines 422-439): 404
when the versions directory does not exist; otherwise read the
directory, `sort().reverse()` the filenames, and map each file to a
metadata-only summary. -/
def listVersions (nid : String) (bs : BlobsDir) : Option (List VersionSummary) :=
  match lookupDir nid bs with
  | none => none
  | some dir =>
      some (((sortByName dir).reverse).map
        (fun p => { filename := fnameCodes p.1, ts := p.1, meta := p.2.meta }))

/-- Claim C6 counterexample: versions written at times 2 < 10 < 11 are
listed as 2, 11, 10 — not newest-first 11, 10, 2 — because the default
JS `Array.sort` compares the filenames `2.json.gz`, `10.json.gz`,
`11.json.gz` as strings, and `"2"` sorts after `"11"`. -/
theorem c6_lexicographic_counterexample :
    (listVersions "n" [("n",
        writeVersionFile 11 (vcSample 3) (writeVersionFile 10 (vcSample 2)
          (writeVersionFile 2 (vcSample 1) [])))]).map
        (fun l => l.map VersionSummary.ts)
      = some [2, 11, 10] ∧ ([2, 11, 10] : List Nat) ≠ [11, 10, 2] := by
  refine ⟨rfl, ?_⟩
  decide

/-- Claim C6 as amended: for versions written at times t1 < t2 < t3
whose decimal representations have equal digit length (true of every
realistic pair of `Date.now()` values, which have 13 digits until the
year 2286), listing returns their summaries newest first — t3, t2, t1
— each summary carrying metadata only (filename, timestamp and the
stored meta object; never the ciphertext). -/
theorem c6_newest_first_amended (nid : String) (t1 t2 t3 : Nat)
    (c1 c2 c3 : VersionContent)
    (h12 : t1 < t2) (h23 : t2 < t3)
    (hl12 : (decDigits t1).length = (decDigits t2).length)
    (hl23 : (decDigits t2).length = (decDigits t3).length) :
    listVersions nid [(nid,
        writeVersionFile t3 c3 (writeVersionFile t2 c2 (writeVersionFile t1 c1 [])))]
      = some [⟨fnameCodes t3, t3, c3.meta⟩, ⟨fnameCodes t2, t2, c2.meta⟩,
              ⟨fnameCodes t1, t1, c1.meta⟩] := by
  have hne12 : t1 ≠ t2 := by omega
  have hne13 : t1 ≠ t3 := by omega
  have hne23 : t2 ≠ t3 := by omega
  have lex12 := lexLe_fname t1 t2 h12 hl12
  have lex23 := lexLe_fname t2 t3 h23 hl23
  simp [listVersions, lookupDir, writeVersionFile, sortByName, insertByName,
    hne12, hne13, hne23, lex12, lex23]

/-- Witness for the amended claim C6 at concrete equal-length
timestamps. -/
theorem c6_newest_first_amended_witness :
    listVersions "n" [("n",
        writeVersionFile 300 (vcSample 3) (writeVersionFile 200 (vcSample 2)
          (writeVersionFile 100 (vcSample 1) [])))]
      = some [⟨fnameCodes 300, 300, (vcSample 3).meta⟩,
              ⟨fnameCodes 200, 200, (vcSample 2).meta⟩,
              ⟨fnameCodes 100, 100, (vcSample 1).meta⟩] :=
  c6_newest_first_amended "n" 100 200 300 (vcSample 1) (vcSample 2) (vcSample 3)
    (by decide) (by decide) (by decide) (by decide)

/-! ## The decrypt endpoint (claim C5) -/

/-- Response of the decrypt route. -/
structure DecResp where
  status : Nat
  error : Option String
  detail : Option String
  payload : Option Bytes
deriving Repr, DecidableEq

/-- Modelled from the spec: the `e.message` text node crypto throws on
a GCM authentication-tag mismatch (library code, not in src/). -/
def authFailureDetail : String := "Unsupported state or unable to authenticate data"

/-- Modelled from the spec: the `e.message` text zlib throws on a
malformed gzip stream (library code, not in src/). -/
def corruptStreamDetail : String := "incorrect header check"

/-- POST /api/v3/enc/decrypt (src/node.js lines 632-641): after the
400 field check, a single try/catch wraps decryption, gunzip and JSON
parsing; EVERY throw inside it is answered the same way — status 500
with error text `decrypt failed` — carrying only the raw library
exception message as `detail`.  (`JSON.parse` of the decompressed
bytes is modelled as the identity, as the stored payloads it receives
on this route are its own stringified output.) -/
def encDecryptHandler (keyBase64 ciphertext iv : List Nat) : DecResp :=
  if keyBase64 = [] ∨ ciphertext = [] ∨ iv = [] then
    { status := 400, error := some "key+ciphertext+iv required", detail := none,
      payload := none }
  else
    let keyBuf := b64decode keyBase64
    match aesGcmDecrypt keyBuf ciphertext iv with
    | none =>
        { status := 500, error := some "decrypt failed",
          detail := some authFailureDetail, payload := none }
    | some plainGz =>
        match gunzipBufferSync plainGz with
        | none =>
            { status := 500, error := some "decrypt failed",
              detail := some corruptStreamDetail, payload := none }
        | some plain =>
            { status := 200, error := none, detail := none, payload := some plain }

/-- Concrete decrypt inputs for claim C5: a base64 key of 32 zero
bytes and a base64 iv of 12 zero bytes. -/
def c5KeyB64 : List Nat := b64encode (List.replicate 32 0)

/-- See `c5KeyB64`. -/
def c5IvB64 : List Nat := b64encode (List.replicate 12 0)

/-- A ciphertext whose 16-byte tag does not verify under the zero key:
16 zero bytes (empty body, all-zero tag). -/
def c5CtAuth : List Nat := b64encode (List.replicate 16 0)

/-- A well-authenticated ciphertext whose decrypted payload `[7]` is
not a gzip stream, so gunzip fails after decryption succeeds. -/
def c5CtCorrupt : List Nat :=
  (aesGcmEncrypt (List.replicate 32 0) (List.replicate 12 0) [7]).ciphertext

/-- Claim C5 counterexample: an authentication-tag mismatch and a
decompression failure of a malformed stream are surfaced to the caller
with the SAME error kind — both answer status 500 with error text
`decrypt failed` — so the two failure causes are not distinguished as
different error kinds. -/
theorem c5_same_error_kind_counterexample :
    (encDecryptHandler c5KeyB64 c5CtAuth c5IvB64).status
      = (encDecryptHandler c5KeyB64 c5CtCorrupt c5IvB64).status ∧
    (encDecryptHandler c5KeyB64 c5CtAuth c5IvB64).error
      = (encDecryptHandler c5KeyB64 c5CtCorrupt c5IvB64).error ∧
    (encDecryptHandler c5KeyB64 c5CtAuth c5IvB64).status = 500 ∧
    (encDecryptHandler c5KeyB64 c5CtAuth c5IvB64).error = some "decrypt failed" ∧
    aesGcmDecrypt (b64decode c5KeyB64) c5CtAuth c5IvB64 = none ∧
    (∃ g, aesGcmDecrypt (b64decode c5KeyB64) c5CtCorrupt c5IvB64 = some g ∧
      gunzipBufferSync g = none) := by
  refine ⟨rfl, rfl, rfl, rfl, rfl, ⟨[7], rfl, rfl⟩⟩

/-- Claim C5 as amended: both failure causes abort the read, but they
are surfaced with the SAME error kind — status 500, error text
`decrypt failed` — for every key, ciphertext and nonce input; the only
difference visible to the caller is the raw library exception message
in the `detail` field, which does differ between the two causes. -/
theorem c5_error_kinds_amended (k ct iv : List Nat)
    (hk : k ≠ []) (hct : ct ≠ []) (hiv : iv ≠ []) :
    (aesGcmDecrypt (b64decode k) ct iv = none →
      encDecryptHandler k ct iv
        = ⟨500, some "decrypt failed", some authFailureDetail, none⟩) ∧
    (∀ g, aesGcmDecrypt (b64decode k) ct iv = some g → gunzipBufferSync g = none →
      encDecryptHandler k ct iv
        = ⟨500, some "decrypt failed", some corruptStreamDetail, none⟩) ∧
    authFailureDetail ≠ corruptStreamDetail := by
  refine ⟨fun hdec => ?_, fun g hdec hgz => ?_, by decide⟩
  · simp [encDecryptHandler, hk, hct, hiv, hdec]
  · simp [encDecryptHandler, hk, hct, hiv, hdec, hgz]

/-- Witness for the amended claim C5 at the two concrete failing
inputs. -/
theorem c5_error_kinds_amended_witness :
    encDecryptHandler c5KeyB64 c5CtAuth c5IvB64
      = ⟨500, some "decrypt failed", some authFailureDetail, none⟩ ∧
    encDecryptHandler c5KeyB64 c5CtCorrupt c5IvB64
      = ⟨500, some "decrypt failed", some corruptStreamDetail, none⟩ :=
  ⟨(c5_error_kinds_amended c5KeyB64 c5CtAuth c5IvB64
      (by decide) (by decide) (by decide)).1 rfl,
    (c5_error_kinds_amended c5KeyB64 c5CtCorrupt c5IvB64
      (by decide) (by decide) (by decide)).2.1 [7] rfl rfl⟩

end Hayden
